import Mathlib

/-!
Shallow embedding of the yt-dlp-to-S3 archiver (`index.mjs`) and its cleanup
companion (`delete-duplicate-extension.mjs`).  JavaScript strings are modelled
as `List Char`; the external yt-dlp tool and the object store appear as
explicit inputs (an `Except` for a child-process result, a list of object
keys for the bucket listing).  Each definition mirrors one function or code
block of the source, cited by line number.
-/

namespace YtDlpS3

/-- JavaScript strings are modelled as lists of characters. -/
abbrev Str := List Char

/-- The characters removed by JavaScript `String.prototype.trim` that can
occur in tool output: space, tab, line feed, carriage return, vertical tab,
form feed. -/
def isJsSpace (c : Char) : Bool :=
  c = ' ' || c = '\t' || c = '\n' || c = '\r' || c = '\x0b' || c = '\x0c'

/-- JavaScript `s.trim()`: drop whitespace from both ends. -/
def jsTrim (s : Str) : Str :=
  ((s.dropWhile isJsSpace).reverse.dropWhile isJsSpace).reverse

/-- `isObjectInBucket` (index.mjs lines 35-43): returns true when some key of
the bucket listing starts with the candidate key **or contains it anywhere**
(`key.startsWith(s3ObjectKey) || key.includes(s3ObjectKey)`); JavaScript
`includes` is containment of a contiguous substring, modelled by `<:+:`. -/
def isObjectInBucket (bucketObjectKeys : List Str) (s3ObjectKey : Str) : Bool :=
  bucketObjectKeys.any fun key =>
    s3ObjectKey.isPrefixOf key || decide (s3ObjectKey <:+: key)

/-- The three reconciliation outcomes the specification speaks about. -/
inductive Decision
  | Skip
  | Upload
  | ReUpload
deriving DecidableEq, Repr

/-- The existence decision of the main loop (index.mjs lines 207-217): if
`isObjectInBucket` reports a match the item is skipped (`continue`), otherwise
it is downloaded and uploaded.  The code has no re-upload branch and no
size comparison: `--reupload-on-size-diff` is documented in the README but is
not among the options parsed at lines 170-179. -/
def mainDecide (bucketObjectKeys : List Str) (title : Str) : Decision :=
  if isObjectInBucket bucketObjectKeys title then Decision.Skip else Decision.Upload

/-- What one delivery of SIGINT does, beyond updating the flag. -/
inductive SigintEffect
  | GracefulMessage
  | ExitNow (code : Nat)
deriving DecidableEq, Repr

/-- The SIGINT handler (index.mjs lines 12-18): when `isShuttingDown` is
already set the process exits immediately with code 1; otherwise it prints the
graceful-shutdown message and sets the flag.  Returns the effect and the new
flag value. -/
def onSigint (isShuttingDown : Bool) : SigintEffect × Bool :=
  if isShuttingDown then (SigintEffect.ExitNow 1, isShuttingDown)
  else (SigintEffect.GracefulMessage, true)

/-- One playlist entry as built at index.mjs lines 69-71: `videoUrl` is
`lines[i]` (always present, the loop guard is `i < lines.length`), `title` is
`lines[i + 1]`, which is `undefined` when `i + 1` runs past the end — hence an
`Option`. -/
structure PlaylistEntry where
  title : Option Str
  videoUrl : Str
deriving DecidableEq, Repr

/-- The pairing loop of `getPlaylistUrls` (index.mjs lines 68-72): consume the
printed lines two at a time; an odd trailing line still yields an entry, with
`title = none` standing for the JavaScript `undefined`. -/
def parsePairs : List Str → List PlaylistEntry
  | [] => []
  | [u] => [{ title := none, videoUrl := u }]
  | u :: t :: rest => { title := some t, videoUrl := u } :: parsePairs rest

/-- `getPlaylistUrls` (index.mjs lines 45-83).  The child-process result is
the input: `Except.error` is the rejected promise of `executeCommand` when
yt-dlp exits non-zero, `Except.ok output` its captured stdout.  The `catch`
block at lines 79-82 swallows the failure and returns the empty list. -/
def getPlaylistUrls (toolResult : Except Unit Str) : List PlaylistEntry :=
  match toolResult with
  | Except.error _ => []
  | Except.ok output => parsePairs ((jsTrim output).splitOn '\n')

/-- The enumeration gate of `main` (index.mjs lines 185-189): with an empty
url list the process exits with code 0; `some c` means the process exits with
code `c` before any item is processed, `none` means the loop is entered. -/
def enumerationExitCode (toolResult : Except Unit Str) : Option Nat :=
  if (getPlaylistUrls toolResult).length = 0 then some 0 else none

/-- The longest digit prefix of a string, as a number; `none` when the string
does not start with a digit. -/
def parseDigits (s : Str) : Option Nat :=
  match s.takeWhile Char.isDigit with
  | [] => none
  | ds => some (ds.foldl (fun acc c => acc * 10 + (c.toNat - 48)) 0)

/-- JavaScript `Number.parseInt(s, 10)`: skip leading whitespace, accept one
optional sign, then read the longest digit prefix; `none` models `NaN`. -/
def jsParseInt (s : Str) : Option Int :=
  match s.dropWhile isJsSpace with
  | '-' :: rest => (parseDigits rest).map fun n => -(n : Int)
  | '+' :: rest => (parseDigits rest).map fun n => (n : Int)
  | rest => (parseDigits rest).map fun n => (n : Int)

/-- The size field of the probe output as `Number.parseInt` sees it
(index.mjs lines 96-97): the second comma-separated field of the trimmed
output.  When the field is absent the destructuring yields `undefined` and
`parseInt(undefined, 10)` is `NaN`, modelled as `none`. -/
def rawSizeField (output : Str) : Option Int :=
  match ((jsTrim output).splitOn ',').get? 1 with
  | none => none
  | some s => jsParseInt s

/-- The metadata record returned by `getMetadata`. -/
structure Metadata where
  extension : Str
  filesize : Int
deriving DecidableEq, Repr

/-- The result construction of `getMetadata` (index.mjs lines 96-102):
`extension` is the trimmed first field; `filesize` is the parsed second field,
replaced by 0 when it is `NaN` or negative
(`Number.isNaN(filesize) || filesize < 0 ? 0 : filesize`). -/
def getMetadataParse (output : Str) : Metadata :=
  { extension := jsTrim (((jsTrim output).splitOn ',').headD [])
    filesize :=
      match rawSizeField output with
      | none => 0
      | some n => if n < 0 then 0 else n }

/-- Environment of one loop iteration: whether the existence check matches,
whether the metadata probe child process succeeds, and whether the streaming
transfer (yt-dlp plus `putObject`) succeeds. -/
structure ItemEnv where
  existsInBucket : Bool
  probeOk : Bool
  uploadOk : Bool
deriving DecidableEq, Repr

/-- The per-item outcomes that let the loop continue. -/
inductive ItemOutcome
  | Skipped
  | Uploaded
deriving DecidableEq, Repr

/-- One iteration of the main loop (index.mjs lines 199-281).  A match skips
the item (line 213).  A failing probe rethrows out of `getMetadata`
(line 106) and there is no try/catch around the `await` at line 219, so the
error escapes the loop: `Except.error`.  A failing transfer calls
`process.exit(1)` (lines 237, 244, 279), also modelled as `Except.error`. -/
def processItem (e : ItemEnv) : Except Unit ItemOutcome :=
  if e.existsInBucket then Except.ok ItemOutcome.Skipped
  else if e.probeOk = false then Except.error ()
  else if e.uploadOk = false then Except.error ()
  else Except.ok ItemOutcome.Uploaded

/-- The batch loop over the items (index.mjs lines 193-281) together with the
top-level handler `main().catch` (lines 287-290), which prints the error and
exits with code 1.  Result: the outcomes of the items that completed, and
whether the run aborted with a non-zero exit. -/
def runItems : List ItemEnv → List ItemOutcome × Bool
  | [] => ([], false)
  | e :: rest =>
    match processItem e with
    | Except.ok o => ((runItems rest).1.cons o, (runItems rest).2)
    | Except.error _ => ([], true)

/-- The shutdown check of the batch loop (index.mjs lines 193-197).
`flagAt i` is the value of `isShuttingDown` at the moment the loop head reads
it before item `i`; the body of an iteration (probe, stream, upload) never
reads the flag — the `await`s at lines 219 and 268 run to completion — so an
iteration is one atomic step here.  Returns the indices of the items that are
fully processed, in order: the loop `break`s at the first index whose check
sees the flag set. -/
def batchLoop (flagAt : Nat → Bool) : Nat → Nat → List Nat
  | 0, _ => []
  | Nat.succ n, i => if flagAt i then [] else i :: batchLoop flagAt n (i + 1)

/-- The indices of the items a run with `total` items fully processes. -/
def processedItems (flagAt : Nat → Bool) (total : Nat) : List Nat :=
  batchLoop flagAt total 0

/-- One object version as listed by the cleanup script
(delete-duplicate-extension.mjs): `name` may be missing or empty (both falsy
in the `!obj.name` test), plus the delete-marker flag and an optional version
id. -/
structure S3ObjectVersion where
  name : Option Str
  isDeleteMarker : Bool
  versionId : Option Str
deriving DecidableEq, Repr

/-- JavaScript truthiness of `obj.name`: `undefined` and the empty string are
falsy. -/
def nameTruthy : Option Str → Bool
  | none => false
  | some s => !s.isEmpty

/-- The leading-dot normalisation of `--keep-extension`
(delete-duplicate-extension.mjs lines 352-355 of the concatenated source):
one leading dot is removed, by `startsWith` plus `substring(1)`. -/
def stripLeadingDot : Str → Str
  | '.' :: rest => rest
  | s => s

/-- JavaScript `toLowerCase`, restricted to the character-wise lowering that
object keys and extensions use. -/
def toLowerStr (s : Str) : Str := s.map Char.toLower

/-- `obj.name.substring(obj.name.lastIndexOf('/') + 1)`: the part of the key
after the last slash, which is the last component of splitting on slashes
(`lastIndexOf` returns -1 when no slash occurs, so the whole key). -/
def baseNameOnly (name : Str) : Str :=
  (name.splitOn '/').getLastD []

/-- The queuing decision of the cleanup loop (delete-duplicate-extension.mjs
lines 363-392): skip versions without a truthy name and delete markers; split
the base name on dots; with more than one part, delete iff the lowercased
last part differs from `extensionToKeep` (already lowercased and dot-stripped
by the caller); with a single part (no extension), delete. -/
def shouldDelete (extensionToKeep : Str) (obj : S3ObjectVersion) : Bool :=
  if !nameTruthy obj.name || obj.isDeleteMarker then false
  else
    let parts := (baseNameOnly (obj.name.getD [])).splitOn '.'
    if parts.length > 1 then
      decide (toLowerStr (parts.getLastD []) ≠ extensionToKeep)
    else true

/-- The cleanup script's full selection of versions to delete: the option is
dot-stripped (lines 352-355) and lowercased (line 361), then every listed
version is tested (lines 363-392). -/
def objectsToDelete (keepExtensionOpt : Str) (objs : List S3ObjectVersion) :
    List S3ObjectVersion :=
  objs.filter (shouldDelete (toLowerStr (stripLeadingDot keepExtensionOpt)))

/-! ## Theorems -/

/-- The boolean existence check is setwise containment: some bucket key has
the candidate as a contiguous substring.  The `startsWith` disjunct is
absorbed because a prefix is in particular an infix. -/
lemma isObjectInBucket_iff (keys : List Str) (k : Str) :
    isObjectInBucket keys k = true ↔ ∃ key ∈ keys, k <:+: key := by
  unfold isObjectInBucket
  simp only [List.any_eq_true, Bool.or_eq_true, List.isPrefixOf_iff_prefix,
    decide_eq_true_eq]
  constructor
  · rintro ⟨key, hk, h | h⟩
    · exact ⟨key, hk, List.IsPrefix.isInfix h⟩
    · exact ⟨key, hk, h⟩
  · rintro ⟨key, hk, h⟩
    exact ⟨key, hk, Or.inr h⟩

/-- Claim C9: for every set of bucket object keys and every query key K,
`isObjectInBucket` returns true if and only if some key in the set contains K
as a contiguous substring at any position — the `startsWith` test is subsumed
by the `includes` test — so an object whose name merely embeds the base key
anywhere is treated as already existing. -/
theorem C9_isObjectInBucket_substring (keys : List Str) (k : Str) :
    isObjectInBucket keys k = true ↔ ∃ key ∈ keys, k <:+: key :=
  isObjectInBucket_iff keys k

/-- Claim C2, counterexample: with the bucket snapshot holding the single key
"at" and the candidate key "t", no snapshot key starts with the candidate,
yet the decision is Skip, not Upload — the claim's "Upload iff no key starts
with K" fails because `includes` also matches interior occurrences. -/
theorem C2_counterexample :
    mainDecide [['a', 't']] ['t'] = Decision.Skip ∧
    (List.filter (fun key => List.isPrefixOf ['t'] key) [['a', 't']]) = [] := by
  constructor
  · rfl
  · rfl

/-- Claim C2, amended: the existence decision in the default matching mode
returns Upload if and only if no key in the snapshot contains the candidate
key as a contiguous substring (not merely: starts with it). -/
theorem C2_upload_iff_no_substring (keys : List Str) (k : Str) :
    mainDecide keys k = Decision.Upload ↔ ∀ key ∈ keys, ¬ k <:+: key := by
  rw [mainDecide]
  by_cases h : isObjectInBucket keys k = true
  · rw [if_pos h]
    obtain ⟨key, hk, hinf⟩ := (isObjectInBucket_iff keys k).mp h
    constructor
    · intro habs
      exact Decision.noConfusion habs
    · intro hall
      exact absurd hinf (hall key hk)
  · rw [if_neg h]
    constructor
    · intro _ key hk hinf
      exact h ((isObjectInBucket_iff keys k).mpr ⟨key, hk, hinf⟩)
    · intro _
      rfl

/-- Claim C1: the code has no re-upload path at all.  At the concrete failing
input — the bucket holds "Title [abc].mp4" (any stored size), the base key is
"Title [abc]", the probed expected size differs, and the README-documented
`--reupload-on-size-diff` is requested — the decision is Skip; moreover every
decision the main loop can make is Skip or Upload, never ReUpload, because
the option is not parsed and no size is ever compared. -/
theorem C1_no_reupload_path :
    mainDecide [("Title [abc].mp4".toList)] ("Title [abc]".toList) = Decision.Skip ∧
    ∀ keys t, mainDecide keys t = Decision.Skip ∨ mainDecide keys t = Decision.Upload := by
  constructor
  · rfl
  · intro keys t
    unfold mainDecide
    rcases isObjectInBucket keys t with _ | _
    · exact Or.inr rfl
    · exact Or.inl rfl

/-- Claim C3, counterexample: a two-item batch whose first item misses the
bucket and fails its metadata probe.  The run aborts with a non-zero exit and
records no outcome at all — in particular the second (perfectly healthy) item
is never processed, refuting "the batch loop proceeds to the next item". -/
theorem C3_counterexample :
    runItems [{ existsInBucket := false, probeOk := false, uploadOk := true },
              { existsInBucket := false, probeOk := true, uploadOk := true }] =
      ([], true) := by
  rfl

/-- Claim C3, amended: a failed metadata probe is fatal to the whole run, not
only to its item — the error thrown by `getMetadata` escapes the loop to the
top-level catch, the process exits non-zero, and no further item (and no
outcome at all from the remaining items) is processed. -/
theorem C3_probe_failure_fatal (e : ItemEnv) (rest : List ItemEnv)
    (hex : e.existsInBucket = false) (hprobe : e.probeOk = false) :
    runItems (e :: rest) = ([], true) := by
  rw [runItems]
  rw [processItem, if_neg (by rw [hex]; exact Bool.false_ne_true), if_pos hprobe]

/-- Witness for the amended C3 at a concrete input: a single unmatched item
with a failing probe aborts the run. -/
theorem C3_probe_failure_fatal_witness :
    runItems [{ existsInBucket := false, probeOk := false, uploadOk := false }] =
      ([], true) :=
  C3_probe_failure_fatal
    { existsInBucket := false, probeOk := false, uploadOk := false } [] rfl rfl

/-- Claim C4: when playlist enumeration fails (yt-dlp exits non-zero), the
`catch` block of `getPlaylistUrls` swallows the error and returns the empty
list, and `main` then exits with code 0 — the very exit code the claim says
never happens.  Concretely, the rejected child-process result leads to exit
code 0 before any item is processed. -/
theorem C4_enumeration_failure_exits_zero :
    getPlaylistUrls (Except.error ()) = [] ∧
    enumerationExitCode (Except.error ()) = some 0 := by
  constructor
  · rfl
  · rfl

/-- Claim C6, counterexample: three printed lines (an odd count, violating the
two-lines-per-entry layout) are parsed without any failure into two entries,
the second of which has no title (`undefined` in the source) — enumeration
silently produces a partial record instead of failing. -/
theorem C6_counterexample :
    getPlaylistUrls (Except.ok ("u1\nt1\nu2".toList)) =
      [{ title := some ("t1".toList), videoUrl := "u1".toList },
       { title := none, videoUrl := "u2".toList }] := by
  rfl

/-- Claim C6, amended: enumeration never validates the record layout — the
parser is total, and whenever the line count is odd it yields a final entry
whose title field is missing (`none`), rather than failing. -/
theorem C6_odd_line_count_gives_missing_title :
    ∀ (lines : List Str), lines.length % 2 = 1 →
      ∃ e ∈ parsePairs lines, e.title = none
  | [], h => by simp at h
  | [u], _ => ⟨{ title := none, videoUrl := u }, by simp [parsePairs]⟩
  | u :: t :: rest, h => by
    have h' : rest.length % 2 = 1 := by
      simp only [List.length_cons] at h
      omega
    obtain ⟨e, he, ht⟩ := C6_odd_line_count_gives_missing_title rest h'
    exact ⟨e, by simp only [parsePairs, List.mem_cons]; exact Or.inr he, ht⟩

/-- Witness for the amended C6 at a concrete input: the single line "u" is an
odd record set and parses to an entry without a title. -/
theorem C6_odd_line_count_witness :
    ∃ e ∈ parsePairs [("u".toList)], e.title = none :=
  C6_odd_line_count_gives_missing_title [("u".toList)] (by rfl)

/-- The loop stops exactly at the first boundary whose check sees the flag
set: when the checks before items `s, s+1, ..., s+k-1` see `false` and the one
before item `s+k` sees `true`, the processed indices are `s, ..., s+k-1`. -/
lemma batchLoop_eq_range' (flagAt : Nat → Bool) :
    ∀ (n s k : Nat), k < n → (∀ j, j < k → flagAt (s + j) = false) →
      flagAt (s + k) = true → batchLoop flagAt n s = List.range' s k
  | 0, _, k, hk, _, _ => absurd hk (Nat.not_lt_zero k)
  | Nat.succ n, s, 0, _, _, h1 => by
    rw [batchLoop, if_pos (by simpa using h1)]
    rfl
  | Nat.succ n, s, Nat.succ k, hk, h0, h1 => by
    have hs : flagAt s = false := by simpa using h0 0 (Nat.succ_pos k)
    rw [batchLoop, if_neg (by rw [hs]; exact Bool.false_ne_true)]
    have ih := batchLoop_eq_range' flagAt n (s + 1) k (Nat.lt_of_succ_lt_succ hk)
      (fun j hj => by
        have := h0 (j + 1) (Nat.succ_lt_succ hj)
        rwa [show s + (j + 1) = s + 1 + j by omega] at this)
      (by rwa [show s + 1 + k = s + (k + 1) by omega])
    rw [ih, List.range'_succ]

/-- Claim C5: the cancellation flag is consulted only at item boundaries.
`hmono` says the flag is never reset (the handler only ever sets it);
`h0`/`h1` say it became true while item `i` was being processed — the
boundary check before item `i` saw `false`, the one before item `i + 1` sees
`true`.  Then the processed items are exactly `0, ..., i`: item `i` runs to
completion and item `i + 1` is never started. -/
theorem C5_cancellation_boundary (flagAt : Nat → Bool) (total i : Nat)
    (hmono : ∀ j k, j ≤ k → flagAt j = true → flagAt k = true)
    (hin : i + 1 < total)
    (h0 : flagAt i = false) (h1 : flagAt (i + 1) = true) :
    processedItems flagAt total = List.range (i + 1) := by
  have hall : ∀ j, j < i + 1 → flagAt j = false := by
    intro j hj
    rcases hfj : flagAt j with _ | _
    · rfl
    · have := hmono j i (Nat.lt_succ_iff.mp hj) hfj
      rw [h0] at this
      exact absurd this Bool.false_ne_true
  rw [processedItems, List.range_eq_range']
  exact batchLoop_eq_range' flagAt total 0 (i + 1) hin
    (fun j hj => by simpa using hall j hj)
    (by simpa using h1)

/-- Witness for C5 at a concrete input: four items, the flag becomes set
between the boundary checks of items 1 and 2; exactly items 0 and 1 are
processed. -/
theorem C5_cancellation_witness :
    processedItems (fun j => decide (2 ≤ j)) 4 = List.range 2 :=
  C5_cancellation_boundary (fun j => decide (2 ≤ j)) 4 1
    (fun j k hjk hj => by
      simp only [decide_eq_true_eq] at hj ⊢
      omega)
    (by omega) (by rfl) (by rfl)

/-- Claim C7: the probed file size is never negative, and whenever the size
field is absent or non-numeric (`Number.parseInt` yields `NaN`) the probe
returns 0, the "unknown" marker, instead of failing or propagating a negative
or NaN value. -/
theorem C7_probe_size_nonneg (output : Str) :
    0 ≤ (getMetadataParse output).filesize ∧
    (rawSizeField output = none → (getMetadataParse output).filesize = 0) := by
  have hfs : (getMetadataParse output).filesize =
      match rawSizeField output with
      | none => 0
      | some n => if n < 0 then 0 else n := rfl
  rw [hfs]
  rcases rawSizeField output with _ | n
  · exact ⟨le_refl 0, fun _ => rfl⟩
  · constructor
    · show 0 ≤ if n < 0 then 0 else n
      by_cases hn : n < 0
      · rw [if_pos hn]
      · rw [if_neg hn]
        omega
    · intro habs
      exact Option.noConfusion habs

/-- Witness for C7 at a concrete input: the probe output "mp4,NA" has a
non-numeric size field and parses to file size 0. -/
theorem C7_probe_size_witness :
    rawSizeField ("mp4,NA".toList) = none ∧
    (getMetadataParse ("mp4,NA".toList)).filesize = 0 :=
  ⟨rfl, (C7_probe_size_nonneg ("mp4,NA".toList)).2 rfl⟩

/-- Claim C8: the first interrupt only prints the graceful message and sets
the shutdown flag; with the flag already set an interrupt exits immediately
with code 1; and after any interrupt the flag is set, so every subsequent
interrupt exits the process at once. -/
theorem C8_second_interrupt_exits :
    onSigint false = (SigintEffect.GracefulMessage, true) ∧
    onSigint true = (SigintEffect.ExitNow 1, true) ∧
    ∀ b : Bool, (onSigint ((onSigint b).2)).1 = SigintEffect.ExitNow 1 := by
  refine ⟨rfl, rfl, ?_⟩
  intro b
  rcases b with _ | _
  · rfl
  · rfl

/-- Characterisation of the cleanup queuing decision for one object version:
deleted iff it has a (non-empty) name, is not a delete marker, and its base
name either has no dot-separated extension or that extension, lowercased,
differs from the (already normalised) extension to keep. -/
lemma shouldDelete_iff (keep : Str) (o : S3ObjectVersion) :
    shouldDelete keep o = true ↔
      ∃ s, o.name = some s ∧ s ≠ [] ∧ o.isDeleteMarker = false ∧
        (((baseNameOnly s).splitOn '.').length ≤ 1 ∨
          toLowerStr (((baseNameOnly s).splitOn '.').getLastD []) ≠ keep) := by
  rcases o with ⟨name, marker, vid⟩
  rcases name with _ | s
  · simp [shouldDelete, nameTruthy]
  · rcases marker with _ | _
    · rcases s with _ | ⟨c, cs⟩
      · simp [shouldDelete, nameTruthy]
      · rw [shouldDelete]
        have hcond : (!nameTruthy (some (c :: cs)) || false) = false := rfl
        rw [if_neg (by rw [hcond]; exact Bool.false_ne_true)]
        simp only [Option.getD_some]
        have hsne : (c :: cs) ≠ ([] : Str) := List.cons_ne_nil c cs
        by_cases hp : ((baseNameOnly (c :: cs)).splitOn '.').length > 1
        · rw [if_pos hp, decide_eq_true_iff]
          constructor
          · intro hne
            exact ⟨c :: cs, rfl, hsne, trivial, Or.inr hne⟩
          · rintro ⟨s', hs', _, _, hor⟩
            cases Option.some.inj hs'
            rcases hor with hle | hne
            · exact absurd hle (by omega)
            · exact hne
        · rw [if_neg hp]
          constructor
          · intro _
            exact ⟨c :: cs, rfl, hsne, trivial, Or.inl (by omega)⟩
          · intro _
            rfl
    · simp [shouldDelete]

/-- Claim C10: a listed object version is queued for deletion by the cleanup
script if and only if it has a name, is not a delete marker, and either its
base name (the part after the last slash) has no dot-separated extension or
its final extension, compared case-insensitively, differs from the configured
keep-extension with any leading dot stripped; versions whose final extension
equals the keep-extension are never queued. -/
theorem C10_cleanup_selection (keepOpt : Str) (o : S3ObjectVersion)
    (objs : List S3ObjectVersion) :
    o ∈ objectsToDelete keepOpt objs ↔
      o ∈ objs ∧ ∃ s, o.name = some s ∧ s ≠ [] ∧ o.isDeleteMarker = false ∧
        (((baseNameOnly s).splitOn '.').length ≤ 1 ∨
          toLowerStr (((baseNameOnly s).splitOn '.').getLastD []) ≠
            toLowerStr (stripLeadingDot keepOpt)) := by
  rw [objectsToDelete, List.mem_filter]
  exact and_congr_right fun _ =>
    shouldDelete_iff (toLowerStr (stripLeadingDot keepOpt)) o

end YtDlpS3
